import Mathlib

/-!
Verification development for the contenteditable clone-synchronization demo.

The repository keeps a read-only "clone" element synchronized with a live
editable "primary" element, including an in-progress IME composition
highlight.  This file gives a shallow embedding of the core logic:

* the DOM content tree (`DNode`) with text nodes, element nodes and the
  document fragment produced by `range.cloneContents()`;
* node addressing (`getNodePath` / `getNodeByPath` from `utils.js`);
* the class-delta filter `onlyToggledSpecialClass`;
* the style-mirroring helpers (`copyComputedStyles`, `applyCustomCSS`,
  `copyAllVisualStyles`), with computed-style reads abstracted as an
  environment function, since `getComputedStyle` is an external browser
  query;
* the composition-highlight step `applyCompositionHighlight`;
* the module state of `dynamic-contenteditable-playground.js`
  (`St`) and its operations `updateClone`, `createCloneEditor`,
  `removeCloneEditor`, `handleCompositionStart`, `handleCompositionEnd`.

Geometry (bounding rectangles, px formatting of float offsets) is carried
as opaque pre-formatted strings in the measurement environment: no claim
under consideration depends on numeric layout arithmetic.  JS strings are
modelled as `List Char` (one entry per UTF-16 code unit in the source).
-/

/-- A DOM node of the mirrored content: a text node (`nodeType 3`), an
element (`nodeType 1`, with tag name, optional `id` attribute and inline
style declarations), or a document fragment (`nodeType 11`, the result of
`range.cloneContents()`). -/
inductive DNode where
  | text (s : List Char)
  | elem (tag : String) (idAttr : Option String)
      (styles : List (String × String)) (children : List DNode)
  | frag (children : List DNode)

/-- `node.childNodes` as a list. -/
def childNodes : DNode → List DNode
  | .text _ => []
  | .elem _ _ _ cs => cs
  | .frag cs => cs

/-- Replace a node's child list (text nodes have no children and are
returned unchanged). -/
def setChildren : DNode → List DNode → DNode
  | .text s, _ => .text s
  | .elem t i st _, cs => .elem t i st cs
  | .frag _, cs => .frag cs

/-- `getNodeByPath(path, root)` from `utils.js`: descend `root`'s children
using each index in the sequence; `null` (here `none`) if any index is out
of range at any step. -/
def getNodeByPath : List Nat → DNode → Option DNode
  | [], root => some root
  | i :: rest, root =>
    match (childNodes root)[i]? with
    | some c => getNodeByPath rest c
    | none => none

/-- The ancestor walk of `getNodePath`, on reversed paths.  A node is
identified by its absolute path from the document root; walking to the
parent drops the last index (the head of the reversed path) and `unshift`s
that index onto the accumulator.  The walk stops when the current node is
the given root (`current !== root` fails) or has no parent (`parent` is
`null`, which in the source skips the push and then exits the loop). -/
def upWalk : List Nat → List Nat → List Nat → List Nat
  | cur, rroot, acc =>
    if cur = rroot then acc
    else
      match cur with
      | [] => acc
      | i :: rest => upWalk rest rroot (i :: acc)

/-- `getNodePath(node, root)` from `utils.js`, with `node` and `root`
given by their absolute paths from the document root (DOM node identity
is its position; `Array.from(parent.childNodes).indexOf(current)` recovers
exactly the last index of the current node's path). -/
def getNodePath (node root : List Nat) : List Nat :=
  upWalk node.reverse root.reverse []

/-- Two trees have identical structure: same arrangement of text nodes and
element nodes, regardless of text content, tags, attributes and styles. -/
inductive SameShape : DNode → DNode → Prop where
  | text {s s'} : SameShape (.text s) (.text s')
  | elem {t i st cs t' i' st' cs'} :
      List.Forall₂ SameShape cs cs' →
      SameShape (.elem t i st cs) (.elem t' i' st' cs')
  | frag {cs cs'} :
      List.Forall₂ SameShape cs cs' →
      SameShape (.frag cs) (.frag cs')

/-- Split a character list at whitespace runs, dropping empty pieces
(`cur` is the reversed current token). -/
def splitCharsAux : List Char → List Char → List String
  | [], cur => if cur = [] then [] else [String.mk cur.reverse]
  | c :: rest, cur =>
    if c.isWhitespace then
      (if cur = [] then [] else [String.mk cur.reverse]) ++ splitCharsAux rest []
    else splitCharsAux rest (c :: cur)

/-- `oldClass.split(/\s+/).filter(Boolean)`: whitespace-separated class
tokens, empty strings dropped. -/
def splitClasses (s : String) : List String :=
  splitCharsAux s.data []

/-- `new Set(tokens)` viewed as a list: keep the first occurrence of each
token, in insertion order (iteration order of a JS `Set`). -/
def dedupAux : List String → List String → List String
  | [], _ => []
  | c :: rest, seen =>
    if seen.contains c then dedupAux rest seen
    else c :: dedupAux rest (c :: seen)

def dedupKeepFirst (l : List String) : List String := dedupAux l []

/-- `onlyToggledSpecialClass(oldClass, newClass, special)` from
`utils.js`: computes the added and removed class sets and returns the
filter decision used by the mutation observer. -/
def onlyToggledSpecialClass (oldClass newClass special : String) : Bool :=
  let oldSet := dedupKeepFirst (splitClasses oldClass)
  let newSet := dedupKeepFirst (splitClasses newClass)
  let added := newSet.filter (fun c => !oldSet.contains c)
  let removed := oldSet.filter (fun c => !newSet.contains c)
  (added.length ≥ 1 && added.contains special && removed.length == 0) ||
  (removed.length ≥ 1 && removed.contains special && added.length == 0)

/-- Modelled from the spec: what the spec's words require the filter to
accept — "toggle-layout-mode (pure presentational class toggle ... must be
filtered out of mutation handling)", i.e. the class delta is exactly the
pure addition or pure removal of the special class and nothing else. -/
def pureSpecialToggleDelta (oldClass newClass special : String) : Bool :=
  let oldSet := dedupKeepFirst (splitClasses oldClass)
  let newSet := dedupKeepFirst (splitClasses newClass)
  let added := newSet.filter (fun c => !oldSet.contains c)
  let removed := oldSet.filter (fun c => !newSet.contains c)
  (added == [special] && removed == []) || (removed == [special] && added == [])

/-- `element.style[prop] = value`: update an inline style declaration
list.  Assigning the empty string removes the declaration (the DOM
behaviour used by `removeCloneEditor` to clear overrides); otherwise an
existing declaration is overwritten in place and a new one is appended. -/
def setStyleProp (styles : List (String × String)) (p v : String) :
    List (String × String) :=
  if v = "" then styles.filter (fun q => q.1 ≠ p)
  else if styles.any (fun q => q.1 = p) then
    styles.map (fun q => if q.1 = p then (p, v) else q)
  else styles ++ [(p, v)]

/-- The fixed property list of `copyComputedStyles` in `utils.js`. -/
def propertiesToCopy : List String :=
  ["color", "backgroundColor", "fontSize", "fontWeight", "fontStyle",
   "fontFamily", "textDecoration", "textAlign", "lineHeight",
   "letterSpacing", "wordSpacing", "textTransform", "borderColor",
   "borderWidth", "borderStyle", "padding", "margin", "display",
   "opacity", "textShadow", "boxShadow"]

/-- `copyComputedStyles(sourceElement, targetElement)` from `utils.js`:
for each property in the fixed list, read the computed value from the
source (`computed : String → String`, the external `getComputedStyle`
result) and assign it to the target's inline style, skipping falsy
(empty), `initial` and `inherit` values.  Returns the target's updated
style list; the source is never touched. -/
def copyComputedStyles (computed : String → String)
    (targetStyles : List (String × String)) : List (String × String) :=
  propertiesToCopy.foldl
    (fun acc p =>
      let v := computed p
      if v ≠ "" ∧ v ≠ "initial" ∧ v ≠ "inherit" then setStyleProp acc p v
      else acc)
    targetStyles

/-- The fixed property list of `copyAllVisualStyles` in
`dynamic-contenteditable-playground.js` (`lineHeight` is commented out in
that source). -/
def visualProps : List String :=
  ["width", "height", "padding", "margin", "fontSize", "fontFamily",
   "fontWeight", "fontStyle", "letterSpacing", "wordSpacing", "textAlign",
   "textDecoration", "textTransform", "borderRadius", "boxSizing",
   "overflowY", "overflowX", "border"]

/-- `copyAllVisualStyles(source, target)`: same filtering as
`copyComputedStyles` over the visual property list. -/
def copyAllVisualStyles (computed : String → String)
    (targetStyles : List (String × String)) : List (String × String) :=
  visualProps.foldl
    (fun acc p =>
      let v := computed p
      if v ≠ "" ∧ v ≠ "initial" ∧ v ≠ "inherit" then setStyleProp acc p v
      else acc)
    targetStyles

/-- `applyCustomCSS(element, styles)` from `utils.js`: assign each entry
to the element's inline style.  The source's `px`-suffixing of numeric
values is absorbed into the (pre-formatted) value strings, since no claim
depends on numeric layout arithmetic. -/
def applyCustomCSS (styles newProps : List (String × String)) :
    List (String × String) :=
  newProps.foldl (fun acc pv => setStyleProp acc pv.1 pv.2) styles

/-- `classList.add(c)`: append the token unless already present. -/
def classListAdd (cs : List String) (c : String) : List String :=
  if c ∈ cs then cs else cs ++ [c]

/-- `classList.remove(c)`: drop the token. -/
def classListRemove (cs : List String) (c : String) : List String :=
  cs.filter (fun x => x ≠ c)

/-- The highlighted span built by `applyCompositionHighlight`:
`document.createElement("span")` with
`span.style.borderBottom = "2px dashed #007bff"` and
`span.textContent = s`. -/
def markerSpan (s : List Char) : DNode :=
  .elem "span" none [("borderBottom", "2px dashed #007bff")] [.text s]

/-- Outcome of the target-resolution ladder at the top of
`applyCompositionHighlight`: split the text child `idx` of the node at
`parentPath` (whose content is `content`), append a fresh marker to the
empty element at `parentPath`, or do nothing this cycle. -/
inductive HLAction where
  | split (parentPath : List Nat) (idx : Nat) (content : List Char)
  | append (parentPath : List Nat)
  | skip
deriving DecidableEq, Repr

/-- The resolution ladder of `applyCompositionHighlight`
(`dynamic-contenteditable-playground.js` lines 452-480): locate
`targetNode` via `getNodeByPath`; if it is an element, pick the text-node
child at the live range's `startOffset` when in range, else the last
child when it is a text node, else treat a childless element as a parent
awaiting a fresh marker; a non-text pick leaves `textNode` as the element
and `parent` as `null`, so nothing happens.  If the target is a text
node, its parent is the node one step up the path (`parentNode`; `null`
when the path is empty).  A document fragment target (possible only at
the root) is neither an element nor a text node, so nothing happens. -/
def resolveHighlightTarget (path : List Nat) (liveOffset : Nat)
    (root : DNode) : HLAction :=
  match getNodeByPath path root with
  | none => .skip
  | some target =>
    match target with
    | .elem _ _ _ cs =>
      if liveOffset < cs.length then
        match cs[liveOffset]? with
        | some (.text s) => .split path liveOffset s
        | _ => .skip
      else if cs.length > 0 then
        match cs.getLast? with
        | some (.text s) => .split path (cs.length - 1) s
        | _ => .skip
      else .append path
    | .text s =>
      match path.getLast? with
      | some i => .split path.dropLast i s
      | none => .skip
    | .frag _ => .skip

/-- Apply `f` to the element at index `i` of a child list (no change when
out of range). -/
def modifyListAt : List DNode → Nat → (DNode → DNode) → List DNode
  | [], _, _ => []
  | c :: cs, 0, f => f c :: cs
  | c :: cs, n + 1, f => c :: modifyListAt cs n f

/-- Apply `f` to the node at `path` inside `root` (no change when the
path does not resolve). -/
def modifyAt (f : DNode → DNode) : List Nat → DNode → DNode
  | [], n => f n
  | i :: rest, n => setChildren n (modifyListAt (childNodes n) i (modifyAt f rest))

/-- The net effect of `parent.replaceChild(afterNode, textNode);
parent.insertBefore(span, afterNode); parent.insertBefore(beforeNode,
span)`: the child at `idx` is replaced by the three nodes in order. -/
def replaceWithTriple (cs : List DNode) (idx : Nat) (b sp a : DNode) :
    List DNode :=
  cs.take idx ++ [b, sp, a] ++ cs.drop (idx + 1)

/-- `applyCompositionHighlight(compositionText, clonedContent)` from
`dynamic-contenteditable-playground.js` lines 451-515 (the same logic as
`updateOutputWithHighlight` in `contenteditable.js`).  The captured
session state `compositionStartOffset` and `compositionStartPath` are
explicit arguments; `liveOffset` is `range.startOffset` as read at
highlight time from the live `Range` object stored at composition start
(DOM ranges are live, so this read is an input of each invocation, not
part of the captured session).  An empty `compositionText` is falsy in
`if (targetNode && compositionText)`, so nothing happens.  In the split
case the bounds check `startOffset >= 0 && endOffset <= textContent.length`
(a range `startOffset` is never negative) gates the replacement; JS
`substring` with these in-range bounds is `take`/`drop` on code units. -/
def applyCompositionHighlight (compositionText : List Char)
    (compositionStartOffset : Nat) (compositionStartPath : List Nat)
    (liveOffset : Nat) (clonedContent : DNode) : DNode :=
  if compositionText = [] then clonedContent
  else
    match resolveHighlightTarget compositionStartPath liveOffset clonedContent with
    | .skip => clonedContent
    | .append pp =>
      modifyAt (fun n => setChildren n (childNodes n ++ [markerSpan compositionText]))
        pp clonedContent
    | .split pp idx c =>
      let endOffset := compositionStartOffset + compositionText.length
      if endOffset ≤ c.length then
        let beforeText := c.take compositionStartOffset
        let composingText := (c.drop compositionStartOffset).take compositionText.length
        let afterText := c.drop endOffset
        modifyAt
          (fun n => setChildren n
            (replaceWithTriple (childNodes n) idx (.text beforeText)
              (markerSpan composingText) (.text afterText)))
          pp clonedContent
      else clonedContent

mutual
/-- The "merged operation" of `updateClone` (lines 420-438): walk the
cloned content in the document order of `querySelectorAll("*")`
(depth-first, elements only), pairing each cloned element with the live
primary element of the same index, whose computed style is
`computedOf i`.  An `id`-bearing cloned element first receives the
`copyComputedStyles` property set and has its `id` stripped; every cloned
element then gets `backgroundColor` and `color` set to the live
element's computed background (hiding the text).  Returns the rewritten
nodes together with the next element index. -/
def mirrorNode (computedOf : Nat → String → String) :
    DNode → Nat → DNode × Nat
  | .text s, i => (.text s, i)
  | .frag cs, i =>
    let r := mirrorList computedOf cs i
    (.frag r.1, r.2)
  | .elem t idA st cs, i =>
    let st1 := if idA.isSome then copyComputedStyles (computedOf i) st else st
    let bg := computedOf i "backgroundColor"
    let st2 := setStyleProp (setStyleProp st1 "backgroundColor" bg) "color" bg
    let r := mirrorList computedOf cs (i + 1)
    (.elem t none st2 r.1, r.2)
def mirrorList (computedOf : Nat → String → String) :
    List DNode → Nat → List DNode × Nat
  | [], i => ([], i)
  | n :: ns, i =>
    let r := mirrorNode computedOf n i
    let r2 := mirrorList computedOf ns r.2
    (r.1 :: r2.1, r2.2)
end

/-- A sibling of the primary editor inside the positioning parent:
the primary itself, the spacer `div`, the clone editor, or unrelated host
content. -/
inductive PageNode where
  | primary
  | spacer
  | clone
  | other (k : Nat)
deriving DecidableEq, Repr

/-- `parent.insertBefore(x, primaryEditor)`: insert directly before the
primary.  (The DOM call presupposes the primary is a child of `parent`;
the fallback append is never reached under that precondition.) -/
def insertBeforePrimary (x : PageNode) : List PageNode → List PageNode
  | [] => [x]
  | n :: ns =>
    if n = .primary then x :: n :: ns else n :: insertBeforePrimary x ns

/-- The spacer element created in `createCloneEditor` step 4. -/
structure SpacerData where
  widthPx : String
  heightPx : String
  visibility : String
  pointerEvents : String
deriving DecidableEq, Repr

/-- The clone editor element: a non-editable deep copy of the primary. -/
structure CloneData where
  children : List DNode
  classes : List String
  idAttr : String
  contentEditable : Bool
  styles : List (String × String)

/-- The module-scope state of `dynamic-contenteditable-playground.js`
(its `let` variables) together with the DOM it owns: the positioning
parent's child list around the primary, the primary's content subtree,
class list and inline styles.  `rangeSet` records that the `range`
variable holds a Range object (set at composition start, never nulled);
the live range's current `startOffset` is an input of each highlight
invocation, not state.  `recalcHeightMode` is the JS variable
`shouldRecalculateHeightRatio`. -/
structure St where
  parentChildren : List PageNode
  parentPosition : String
  primaryChildren : List DNode
  primaryClasses : List String
  primaryStyles : List (String × String)
  cloneEditor : Option CloneData
  spacerElement : Option SpacerData
  resizeObserver : Bool
  positionedAncestor : Bool
  originalPrimaryPosition : Option String
  recalcHeightMode : Bool
  isComposing : Bool
  compositionStartOffset : Nat
  compositionStartPath : Option (List Nat)
  compositionData : List Char
  rangeSet : Bool

/-- The external measurements read by `createCloneEditor` before mutating
anything: bounding-rect sizes and offsets (carried pre-formatted, since
no claim depends on layout arithmetic), the primary's computed position
and background, the parent's stylesheet position (its computed position
when no inline position is set), the primary's computed style map, and
the per-element computed styles used by `updateClone`'s mirror pass. -/
structure MeasureEnv where
  primaryRectWidthPx : String
  primaryRectHeightPx : String
  primaryComputedPosition : String
  parentStylesheetPosition : String
  originalBgColor : String
  originalWidth : String
  originalHeight : String
  topOffsetPx : String
  leftOffsetPx : String
  computedPrimary : String → String
  computedOf : Nat → String → String

/-- `updateClone(compositionText = null)` from
`dynamic-contenteditable-playground.js` lines 407-448.  Returns
immediately when no clone exists.  Otherwise: temporarily remove the
`overlay-mode` class from the primary (so computed styles are read
without it), deep-copy the primary's content
(`range.selectNodeContents`/`cloneContents`), run the style-mirror pass,
apply the composition highlight when `isComposing && compositionText &&
compositionStartPath` are all truthy, re-add `overlay-mode`, and replace
the clone's children with the result.  `liveOffset` is the stored live
range's `startOffset`, consulted only inside the highlight step.
`refreshedChildren` is the content `updateClone` hands to
`cloneEditor.replaceChildren`: the mirrored deep copy of the primary's
content, with the composition highlight applied on top when
`isComposing && compositionText && compositionStartPath` are all truthy
(an empty string and a `null` path are falsy). -/
def refreshedChildren (computedOf : Nat → String → String) (liveOffset : Nat) :
    Option (List Char) → Option (List Nat) → St → List DNode
  | some ct, some p, st =>
    if st.isComposing ∧ ct ≠ [] then
      childNodes
        (applyCompositionHighlight ct st.compositionStartOffset p liveOffset
          (.frag (mirrorList computedOf st.primaryChildren 0).1))
    else (mirrorList computedOf st.primaryChildren 0).1
  | _, _, st => (mirrorList computedOf st.primaryChildren 0).1

def updateClone (computedOf : Nat → String → String) (liveOffset : Nat)
    (compositionText : Option (List Char)) (st : St) : St :=
  match st.cloneEditor with
  | none => st
  | some clone =>
    let classes1 := classListRemove st.primaryClasses "overlay-mode"
    let highlighted :=
      refreshedChildren computedOf liveOffset compositionText
        st.compositionStartPath st
    let classes2 := classListAdd classes1 "overlay-mode"
    { st with
      primaryClasses := classes2,
      cloneEditor := some { clone with children := highlighted } }

/-- `createCloneEditor()` (lines 196-317): a no-op when the clone already
exists; otherwise capture measurements, insert the spacer before the
primary, give the parent a positioning context if it is `static`, store
the primary's original position, absolutely position the primary
(`applyCustomCSS`, z-index 2), build the clone as a non-editable deep
copy (id `clone-editor`) positioned identically beneath (z-index 1) with
mirrored visual styles and text colored like its background, add the
`overlay-mode` class to the primary, insert the clone before the
primary, register the resize observer, and run one initial
`updateClone()` (no composition text, so the live range offset is not
consulted). -/
def attachSteps (env : MeasureEnv) (st : St) : St :=
    let currentPosition := env.primaryComputedPosition
    let spacer : SpacerData :=
      { widthPx := env.primaryRectWidthPx,
        heightPx := env.primaryRectHeightPx,
        visibility := "hidden", pointerEvents := "none" }
    let st1 := { st with
      spacerElement := some spacer,
      parentChildren := insertBeforePrimary .spacer st.parentChildren }
    let parentComputedPosition :=
      if st1.parentPosition = "" then env.parentStylesheetPosition
      else st1.parentPosition
    let st2 :=
      if parentComputedPosition = "static" then
        { st1 with parentPosition := "relative", positionedAncestor := true }
      else st1
    let st3 := { st2 with originalPrimaryPosition := some currentPosition }
    let primaryPositioned :=
      applyCustomCSS st3.primaryStyles
        [("position", "absolute"), ("top", env.topOffsetPx),
         ("left", env.leftOffsetPx), ("width", env.originalWidth),
         ("height", env.originalHeight), ("zIndex", "2")]
    let st4 := { st3 with primaryStyles := primaryPositioned }
    let c0 : CloneData :=
      { children := st4.primaryChildren, classes := st4.primaryClasses,
        idAttr := "clone-editor", contentEditable := false,
        styles := st4.primaryStyles }
    let clonePositioned :=
      applyCustomCSS c0.styles
        [("position", "absolute"), ("top", env.topOffsetPx),
         ("left", env.leftOffsetPx), ("width", env.originalWidth),
         ("height", env.originalHeight), ("zIndex", "1")]
    let c1 := { c0 with styles := clonePositioned }
    let c2 := { c1 with styles := copyAllVisualStyles env.computedPrimary c1.styles }
    let cloneTransparent :=
      setStyleProp (setStyleProp c2.styles "backgroundColor" env.originalBgColor)
        "color" env.originalBgColor
    let c3 := { c2 with styles := cloneTransparent }
    let st5 := { st4 with
      primaryClasses := classListAdd st4.primaryClasses "overlay-mode" }
    let st6 := { st5 with
      cloneEditor := some c3,
      parentChildren := insertBeforePrimary .clone st5.parentChildren }
    { st6 with resizeObserver := true }

def createCloneEditor (env : MeasureEnv) (st : St) : St :=
  if st.cloneEditor.isSome then st
  else updateClone env.computedOf 0 none (attachSteps env st)

/-- `removeCloneEditor()` (lines 320-369): a no-op when no clone exists;
otherwise disconnect the resize observer, remove the spacer, remove the
clone, restore the primary's original position and clear its
offset/size overrides (assigning `""` removes an inline declaration),
remove the `overlay-mode` class and the z-index override, clear the
positioned-ancestor bookkeeping (the parent keeps its positioning), and
reset the height-recalculation flag. -/
def removeCloneEditor (st : St) : St :=
  match st.cloneEditor with
  | none => st
  | some _ =>
    -- `if (resizeObserver) { resizeObserver.disconnect(); resizeObserver =
    -- null; }`: the guard only avoids calling `disconnect` on `null`; the
    -- resulting state has no observer either way.
    let st1 := { st with resizeObserver := false }
    let st2 :=
      match st1.spacerElement with
      | some _ => { st1 with
          spacerElement := none,
          parentChildren := st1.parentChildren.erase .spacer }
      | none => st1
    let st3 := { st2 with
      cloneEditor := none,
      parentChildren := st2.parentChildren.erase .clone }
    let st4 :=
      match st3.originalPrimaryPosition with
      | some pos =>
        let restored :=
          setStyleProp (setStyleProp (setStyleProp (setStyleProp
            (setStyleProp st3.primaryStyles "position" pos)
              "top" "") "left" "") "width" "") "height" ""
        { st3 with primaryStyles := restored, originalPrimaryPosition := none }
      | none => st3
    let st5 := { st4 with
      primaryClasses := classListRemove st4.primaryClasses "overlay-mode",
      primaryStyles := setStyleProp st4.primaryStyles "zIndex" "" }
    -- `if (positionedAncestor) { positionedAncestor = null; }`: likewise a
    -- pure reference clear (the parent keeps its positioning).
    { st5 with positionedAncestor := false, recalcHeightMode := false }

/-- `handleCompositionStart()` (lines 30-39): mark composing; when the
selection has a range, store the live range, capture its numeric
`startOffset` and convert its start container to a structural path
relative to the primary.  `selection` is `some (startOffset,
startContainer)` when `selection.rangeCount > 0`, with the container
given by its absolute document path; `primaryPath` is the primary
editor's absolute document path. -/
def handleCompositionStart (selection : Option (Nat × List Nat))
    (primaryPath : List Nat) (st : St) : St :=
  let st1 := { st with isComposing := true }
  match selection with
  | some (off, container) =>
    { st1 with
      rangeSet := true,
      compositionStartOffset := off,
      compositionStartPath := some (getNodePath container primaryPath) }
  | none => st1

/-- `handleCompositionUpdate(e)` (lines 41-46): while composing, store
the latest in-progress text (`e.data || ""`). -/
def handleCompositionUpdate (data : Option (List Char)) (st : St) : St :=
  if st.isComposing then { st with compositionData := data.getD [] } else st

/-- `handleCompositionEnd(e)` (lines 48-54): leave the composing state,
clear the in-progress text and the anchor path, and run one final
`updateClone()` with no composition text (so no highlight is applied and
the live range offset is not consulted). -/
def handleCompositionEnd (computedOf : Nat → String → String) (st : St) : St :=
  updateClone computedOf 0 none
    { st with
      isComposing := false, compositionData := [],
      compositionStartPath := none }

/-- An all-empty computed-style environment, used for concrete
instantiations. -/
def envZero : Nat → String → String := fun _ _ => ""

def measureEnvZero : MeasureEnv :=
  { primaryRectWidthPx := "", primaryRectHeightPx := "",
    primaryComputedPosition := "static", parentStylesheetPosition := "static",
    originalBgColor := "", originalWidth := "", originalHeight := "",
    topOffsetPx := "", leftOffsetPx := "",
    computedPrimary := fun _ => "", computedOf := envZero }

/-- A detached baseline state: host content plus the primary inside the
parent, nothing attached, no composition. -/
def stBase : St :=
  { parentChildren := [.other 0, .primary],
    parentPosition := "",
    primaryChildren := [.elem "p" none [] [.text ['H', 'i']]],
    primaryClasses := [],
    primaryStyles := [],
    cloneEditor := none, spacerElement := none,
    resizeObserver := false, positionedAncestor := false,
    originalPrimaryPosition := none, recalcHeightMode := false,
    isComposing := false, compositionStartOffset := 0,
    compositionStartPath := none, compositionData := [], rangeSet := false }

def cloneZero : CloneData :=
  { children := [], classes := [], idAttr := "clone-editor",
    contentEditable := false, styles := [] }

/-- Number of siblings of a given kind inside the parent (used to state
"exactly one clone element and one spacer element are present"). -/
def countNode (x : PageNode) : List PageNode → Nat
  | [] => 0
  | n :: ns => (if n = x then 1 else 0) + countNode x ns

/-- Observe the text content of the node at `p` (used to tell two
concrete trees apart). -/
def textAt (p : List Nat) (root : DNode) : Option (List Char) :=
  match getNodeByPath p root with
  | some (.text s) => some s
  | _ => none

/-- A cloned content fragment whose first element has two text children,
so the element-branch child pick of the highlight step is observable. -/
def demoTreeTwoTexts : DNode :=
  .frag [.elem "p" none [] [.text ['a', 'b'], .text ['c', 'd']]]

/-- A cloned content fragment with a single text child. -/
def demoTreeOneText : DNode :=
  .frag [.elem "p" none [] [.text ['H', 'i']]]

/-- An attached state mid-composition whose captured start offset (5)
exceeds the bounds of the primary's text content. -/
def stOverRange : St :=
  { stBase with
    cloneEditor := some cloneZero, isComposing := true, rangeSet := true,
    compositionStartOffset := 5, compositionStartPath := some [0, 0] }

/-- An attached state whose primary carries a host-added class after
`overlay-mode`. -/
def stExtraClass : St :=
  { stBase with
    cloneEditor := some cloneZero,
    primaryClasses := ["overlay-mode", "note"] }

/-- A detached state mid-composition with captured session data. -/
def stComposing : St :=
  { stBase with
    isComposing := true, rangeSet := true, compositionStartOffset := 5,
    compositionData := ['x'], compositionStartPath := some [0] }

/-- An attached state mid-composition with captured session data. -/
def stComposingAttached : St :=
  { stExtraClass with
    isComposing := true, rangeSet := true, compositionStartOffset := 3,
    compositionData := ['y'], compositionStartPath := some [0] }

example : getNodeByPath [0] (.elem "div" none [] [.text ['h']]) = some (.text ['h']) := rfl
example : getNodePath [2, 1, 0] [2] = [1, 0] := by decide
example : getNodePath [3, 1] [2] = [3, 1] := by decide
example : onlyToggledSpecialClass "a b" "a b overlay-mode" "overlay-mode" = true := by decide
example : onlyToggledSpecialClass "" "overlay-mode extra" "overlay-mode" = true := by decide
example : pureSpecialToggleDelta "" "overlay-mode extra" "overlay-mode" = false := by decide
example :
    applyCompositionHighlight ['e'] 1 [0] 0
      (.frag [.text ['H', 'e', 'l', 'l', 'o']]) =
    .frag [.text ['H'], markerSpan ['e'], .text ['l', 'l', 'o']] := rfl

/-! ## Theorems -/

theorem upWalk_self (rr acc : List Nat) : upWalk rr rr acc = acc := by
  cases rr with
  | nil => rfl
  | cons x t =>
    show (if x :: t = x :: t then acc else upWalk t (x :: t) (x :: acc)) = acc
    rw [if_pos rfl]

theorem upWalk_cons (i : Nat) (rest rroot acc : List Nat)
    (hne : i :: rest ≠ rroot) :
    upWalk (i :: rest) rroot acc = upWalk rest rroot (i :: acc) := by
  show (if i :: rest = rroot then acc else upWalk rest rroot (i :: acc)) = _
  rw [if_neg hne]

theorem upWalk_nil (rroot acc : List Nat) : upWalk [] rroot acc = acc := by
  show (if [] = rroot then acc else acc) = acc
  split <;> rfl

theorem upWalk_append (x rr : List Nat) :
    ∀ acc, upWalk (x ++ rr) rr acc = x.reverse ++ acc := by
  induction x with
  | nil =>
    intro acc
    rw [List.nil_append, upWalk_self]
    simp
  | cons i xs ih =>
    intro acc
    have hne : i :: (xs ++ rr) ≠ rr := by
      intro h
      have hlen := congrArg List.length h
      simp at hlen
      omega
    rw [List.cons_append, upWalk_cons _ _ _ _ hne]
    rw [ih (i :: acc)]
    simp

theorem upWalk_noHit (rr : List Nat) :
    ∀ (cur : List Nat), (∀ t, t <:+ cur → t ≠ rr) →
      ∀ acc, upWalk cur rr acc = cur.reverse ++ acc := by
  intro cur
  induction cur with
  | nil =>
    intro _ acc
    rw [upWalk_nil]
    simp
  | cons i xs ih =>
    intro h acc
    have hne : (i :: xs) ≠ rr := h _ (List.suffix_refl _)
    rw [upWalk_cons _ _ _ _ hne]
    rw [ih (fun t ht => h t (ht.trans (List.suffix_cons i xs))) (i :: acc)]
    simp

/-- C9: `getNodePath` is total: for a descendant of `root` it returns the
relative path, and for a non-descendant the walk runs to the outermost
ancestor and returns the node's full absolute path. -/
theorem getNodePath_total_spec (p r : List Nat) :
    getNodePath p r = if r <+: p then p.drop r.length else p := by
  by_cases h : r <+: p
  · obtain ⟨q, hq⟩ := h
    subst hq
    rw [if_pos ⟨q, rfl⟩]
    unfold getNodePath
    rw [List.reverse_append, upWalk_append]
    simp [List.drop_left]
  · rw [if_neg h]
    unfold getNodePath
    rw [upWalk_noHit]
    · simp
    · intro t ht hte
      subst hte
      exact h (List.reverse_suffix.mp ht)

theorem forall₂_get2 {R : DNode → DNode → Prop} :
    ∀ {l l' : List DNode}, List.Forall₂ R l l' →
      ∀ {i : Nat} {a : DNode}, l[i]? = some a →
        ∃ b, l'[i]? = some b ∧ R a b := by
  intro l l' h
  induction h with
  | nil => intro i a ha; simp at ha
  | @cons x y xs ys hR _ ih =>
    intro i a ha
    cases i with
    | zero =>
      simp at ha ⊢
      exact ha ▸ hR
    | succ n =>
      simp at ha ⊢
      exact ih ha

theorem sameShape_childNodes {a b : DNode} (h : SameShape a b) :
    List.Forall₂ SameShape (childNodes a) (childNodes b) := by
  cases h with
  | text => exact List.Forall₂.nil
  | elem h => exact h
  | frag h => exact h

theorem shape_nodeAt :
    ∀ (q : List Nat) {T T' n : DNode}, SameShape T T' →
      getNodeByPath q T = some n →
      ∃ n', getNodeByPath q T' = some n' ∧ SameShape n n' := by
  intro q
  induction q with
  | nil =>
    intro T T' n hs h
    rw [getNodeByPath] at h
    cases h
    exact ⟨T', rfl, hs⟩
  | cons i rest ih =>
    intro T T' n hs h
    rw [getNodeByPath] at h
    cases hc : (childNodes T)[i]? with
    | none => rw [hc] at h; cases h
    | some c =>
      rw [hc] at h
      obtain ⟨c', hc', hcc⟩ := forall₂_get2 (sameShape_childNodes hs) hc
      obtain ⟨n', hn', hnn⟩ := ih hcc h
      refine ⟨n', ?_, hnn⟩
      rw [getNodeByPath, hc']
      exact hn'

/-- C1: for structurally identical trees `T` and `T'` and any node `n`
inside `T` (at relative path `q`, with `T` itself at absolute path `r`),
`getNodeByPath (getNodePath n T) T'` returns the node of `T'` at the same
structural position; in particular `getNodePath root root = []` and
`getNodeByPath [] root = root`. -/
theorem getNodePath_getNodeByPath_roundtrip
    (T T' n : DNode) (r q : List Nat)
    (hshape : SameShape T T') (hn : getNodeByPath q T = some n) :
    getNodePath (r ++ q) r = q ∧
    (∃ n', getNodeByPath (getNodePath (r ++ q) r) T' = some n' ∧ SameShape n n') ∧
    getNodePath r r = [] ∧ getNodeByPath [] T' = some T' := by
  have hpath : getNodePath (r ++ q) r = q := by
    unfold getNodePath
    rw [List.reverse_append, upWalk_append]
    simp
  refine ⟨hpath, ?_, ?_, rfl⟩
  · rw [hpath]
    exact shape_nodeAt q hshape hn
  · unfold getNodePath
    exact upWalk_self _ _

/-- Witness for C1 at a concrete tree pair: `T = <div>"a"</div>` and a
structural twin `T'` with different text and an id attribute, node at
relative path `[0]`, root at absolute path `[3, 1]`. -/
theorem getNodePath_getNodeByPath_roundtrip_witness :
    getNodePath ([3, 1] ++ [0]) [3, 1] = [0] ∧
    (∃ n', getNodeByPath (getNodePath ([3, 1] ++ [0]) [3, 1])
        (DNode.elem "div" (some "x") [] [.text ['b']]) = some n' ∧
      SameShape (DNode.text ['a']) n') ∧
    getNodePath [3, 1] [3, 1] = [] ∧
    getNodeByPath [] (DNode.elem "div" (some "x") [] [.text ['b']]) =
      some (DNode.elem "div" (some "x") [] [.text ['b']]) :=
  getNodePath_getNodeByPath_roundtrip
    (.elem "div" none [] [.text ['a']])
    (.elem "div" (some "x") [] [.text ['b']])
    (.text ['a']) [3, 1] [0]
    (SameShape.elem (List.Forall₂.cons SameShape.text List.Forall₂.nil))
    rfl

/-- C8: the mutation filter is claimed to fire iff the class delta is
exactly the pure toggle of the special class.  The implementation's own
comment says "Ignore if the delta is exactly [+special] or [-special]",
but the code tests `added.length >= 1 && added.includes(special) &&
removed.length === 0`: a mutation that adds the special class together
with another class (and removes nothing) is also filtered out, so that
mutation triggers no refresh.  The pure toggles themselves are filtered
as claimed. -/
theorem onlyToggledSpecialClass_bug :
    onlyToggledSpecialClass "" "overlay-mode extra" "overlay-mode" = true ∧
    pureSpecialToggleDelta "" "overlay-mode extra" "overlay-mode" = false ∧
    onlyToggledSpecialClass "a" "a overlay-mode" "overlay-mode" = true ∧
    onlyToggledSpecialClass "a overlay-mode" "a" "overlay-mode" = true ∧
    onlyToggledSpecialClass "a" "a b" "overlay-mode" = false := by
  decide

theorem modifyListAt_getElem_self (f : DNode → DNode) :
    ∀ (cs : List DNode) (i : Nat),
      (modifyListAt cs i f)[i]? = (cs[i]?).map f := by
  intro cs
  induction cs with
  | nil => intro i; simp [modifyListAt]
  | cons c rest ih =>
    intro i
    cases i with
    | zero => simp [modifyListAt]
    | succ n => simp [modifyListAt, ih]

theorem getNodeByPath_modifyAt (f : DNode → DNode) :
    ∀ (pp : List Nat) (root : DNode),
      getNodeByPath pp (modifyAt f pp root) =
        (getNodeByPath pp root).map f := by
  intro pp
  induction pp with
  | nil => intro root; rfl
  | cons i rest ih =>
    intro root
    show getNodeByPath (i :: rest)
        (setChildren root (modifyListAt (childNodes root) i (modifyAt f rest))) = _
    cases root with
    | text s => simp [getNodeByPath, setChildren, childNodes]
    | elem t idA st cs =>
      show (match (modifyListAt cs i (modifyAt f rest))[i]? with
        | some c => getNodeByPath rest c
        | none => none) =
        Option.map f (match cs[i]? with
        | some c => getNodeByPath rest c
        | none => none)
      rw [modifyListAt_getElem_self]
      cases hc : cs[i]? with
      | none => rfl
      | some c => exact ih c
    | frag cs =>
      show (match (modifyListAt cs i (modifyAt f rest))[i]? with
        | some c => getNodeByPath rest c
        | none => none) =
        Option.map f (match cs[i]? with
        | some c => getNodeByPath rest c
        | none => none)
      rw [modifyListAt_getElem_self]
      cases hc : cs[i]? with
      | none => rfl
      | some c => exact ih c

theorem applyCompositionHighlight_split_eq
    (root : DNode) (path pp : List Nat) (idx lo s : Nat) (c ct : List Char)
    (hct : ct ≠ [])
    (hres : resolveHighlightTarget path lo root = .split pp idx c)
    (hlen : s + ct.length ≤ c.length) :
    applyCompositionHighlight ct s path lo root =
      modifyAt
        (fun n => setChildren n
          (replaceWithTriple (childNodes n) idx (.text (c.take s))
            (markerSpan ((c.drop s).take ct.length))
            (.text (c.drop (s + ct.length)))))
        pp root := by
  unfold applyCompositionHighlight
  rw [if_neg hct, hres]
  show (if s + ct.length ≤ c.length then _ else root) = _
  rw [if_pos hlen]

/-- C3 (amended): for every resolved text node with content `c`, captured
start offset `s` and nonempty in-progress text `ct` with
`s + ct.length ≤ c.length`, the highlight step replaces that text child
with exactly three nodes in order — a text node holding the first `s`
code units of `c`, a marker span holding the next `ct.length`, and a text
node holding the rest — and the concatenation of the three segments is
exactly `c`. -/
theorem applyCompositionHighlight_splits_text
    (root P : DNode) (path pp : List Nat) (idx lo s : Nat) (c ct : List Char)
    (hct : ct ≠ [])
    (hres : resolveHighlightTarget path lo root = .split pp idx c)
    (hlen : s + ct.length ≤ c.length)
    (hP : getNodeByPath pp root = some P) :
    getNodeByPath pp (applyCompositionHighlight ct s path lo root) =
      some (setChildren P
        (replaceWithTriple (childNodes P) idx
          (.text (c.take s))
          (markerSpan ((c.drop s).take ct.length))
          (.text (c.drop (s + ct.length))))) ∧
    c.take s ++ ((c.drop s).take ct.length ++ c.drop (s + ct.length)) = c := by
  constructor
  · rw [applyCompositionHighlight_split_eq root path pp idx lo s c ct hct hres hlen]
    rw [getNodeByPath_modifyAt, hP]
    rfl
  · have h1 : c.drop (s + ct.length) = (c.drop s).drop ct.length := by
      rw [List.drop_drop, Nat.add_comm]
    rw [h1, List.take_append_drop, List.take_append_drop]

/-- Witness for C3 at Scenario 2: clone text `"Hello"`, composition
started at offset 1 inside it, in-progress text `"e"`; the clone's
fragment child list becomes `"H"`, marker `"e"`, `"llo"`. -/
theorem applyCompositionHighlight_splits_text_witness :
    getNodeByPath []
      (applyCompositionHighlight ['e'] 1 [0] 0
        (.frag [.text ['H', 'e', 'l', 'l', 'o']])) =
      some (.frag [.text ['H'], markerSpan ['e'], .text ['l', 'l', 'o']]) ∧
    resolveHighlightTarget [0] 0 (.frag [.text ['H', 'e', 'l', 'l', 'o']]) =
      .split [] 0 ['H', 'e', 'l', 'l', 'o'] := by
  refine ⟨?_, rfl⟩
  have h := applyCompositionHighlight_splits_text
    (.frag [.text ['H', 'e', 'l', 'l', 'o']])
    (.frag [.text ['H', 'e', 'l', 'l', 'o']])
    [0] [] 0 0 1 ['H', 'e', 'l', 'l', 'o'] ['e']
    (by decide) rfl (by decide) rfl
  exact h.1

/-- C2: when the computed end offset (captured start offset plus
in-progress-text length) exceeds the resolved text node's length, the
highlight step returns the cloned content unchanged (no marker, and —
being a total function — no exception), and the refresh cycle's
`updateClone` renders the plain mirrored content in the clone. -/
theorem applyCompositionHighlight_out_of_range
    (computedOf : Nat → String → String) (st : St) (cl : CloneData)
    (path pp : List Nat) (idx lo : Nat) (c ct : List Char)
    (hcl : st.cloneEditor = some cl)
    (hpath : st.compositionStartPath = some path)
    (hres : resolveHighlightTarget path lo
      (.frag (mirrorList computedOf st.primaryChildren 0).1) = .split pp idx c)
    (hover : c.length < st.compositionStartOffset + ct.length) :
    applyCompositionHighlight ct st.compositionStartOffset path lo
        (.frag (mirrorList computedOf st.primaryChildren 0).1) =
      .frag (mirrorList computedOf st.primaryChildren 0).1 ∧
    (updateClone computedOf lo (some ct) st).cloneEditor =
      some { cl with children := (mirrorList computedOf st.primaryChildren 0).1 } := by
  have happ : applyCompositionHighlight ct st.compositionStartOffset path lo
      (.frag (mirrorList computedOf st.primaryChildren 0).1) =
      .frag (mirrorList computedOf st.primaryChildren 0).1 := by
    by_cases hct : ct = []
    · unfold applyCompositionHighlight
      rw [if_pos hct]
    · unfold applyCompositionHighlight
      rw [if_neg hct, hres]
      show (if st.compositionStartOffset + ct.length ≤ c.length then _
        else DNode.frag (mirrorList computedOf st.primaryChildren 0).1) = _
      rw [if_neg (by omega)]
  have hch : refreshedChildren computedOf lo (some ct) st.compositionStartPath st =
      (mirrorList computedOf st.primaryChildren 0).1 := by
    rw [hpath, refreshedChildren]
    by_cases hco : st.isComposing = true ∧ ct ≠ []
    · rw [if_pos hco, happ]
      rfl
    · rw [if_neg hco]
  refine ⟨happ, ?_⟩
  have hu : (updateClone computedOf lo (some ct) st).cloneEditor =
      some ({ cl with children := refreshedChildren computedOf lo (some ct) st.compositionStartPath st }) := by
    unfold updateClone
    rw [hcl]
  rw [hu, hch]

/-- Witness for C2 at a concrete attached state: clone text `"Hi"`
(length 2), captured offset 5, in-progress text `"x"`; the highlight is
skipped and the clone shows the plain mirrored content. -/
theorem applyCompositionHighlight_out_of_range_witness :
    applyCompositionHighlight ['x'] stOverRange.compositionStartOffset [0, 0] 0
        (.frag (mirrorList envZero stOverRange.primaryChildren 0).1) =
      .frag (mirrorList envZero stOverRange.primaryChildren 0).1 ∧
    (updateClone envZero 0 (some ['x']) stOverRange).cloneEditor =
      some { cloneZero with
        children := (mirrorList envZero stOverRange.primaryChildren 0).1 } :=
  applyCompositionHighlight_out_of_range envZero stOverRange cloneZero
    [0, 0] [0] 0 0 ['H', 'i'] ['x'] rfl rfl (by decide) (by decide)

/-- Counterexample to C4: the highlight step is not a function of the
captured session state alone.  With identical captured values (text
`"x"`, start offset 0, anchor path `[0]` resolving to an element with
two text children) the result depends on the stored live range's
`startOffset` as read at highlight time (`0` picks the first text child,
`1` the second), so the child-index is not the value captured at
composition start. -/
theorem applyCompositionHighlight_live_range_dependence :
    applyCompositionHighlight ['x'] 0 [0] 0 demoTreeTwoTexts ≠
      applyCompositionHighlight ['x'] 0 [0] 1 demoTreeTwoTexts := by
  intro h
  exact absurd (congrArg (textAt [0, 0]) h) (by decide)

/-- C4 (amended): the numeric start offset used to split the text is the
captured `compositionStartOffset`, and when the anchor path resolves
directly to a text node the live range is not consulted at all (the
result is the same for any two live offsets); but when the resolved node
is an element, the child-index used is the stored live range's
`startOffset` as read at highlight time, not a value captured at
composition start. -/
theorem applyCompositionHighlight_offset_usage :
    (∀ (ct : List Char) (s : Nat) (path : List Nat) (lo1 lo2 : Nat)
        (root : DNode) (c : List Char),
        getNodeByPath path root = some (.text c) →
        applyCompositionHighlight ct s path lo1 root =
          applyCompositionHighlight ct s path lo2 root) ∧
    (∀ (path : List Nat) (lo : Nat) (root : DNode) (t : String)
        (idA : Option String) (sty : List (String × String))
        (cs : List DNode) (c : List Char),
        getNodeByPath path root = some (.elem t idA sty cs) →
        cs[lo]? = some (.text c) →
        resolveHighlightTarget path lo root = .split path lo c) := by
  constructor
  · intro ct s path lo1 lo2 root c h
    have hrt : ∀ lo : Nat, resolveHighlightTarget path lo root =
        (match path.getLast? with
          | some i => .split path.dropLast i c
          | none => .skip) := by
      intro lo
      unfold resolveHighlightTarget
      rw [h]
    unfold applyCompositionHighlight
    rw [hrt lo1, hrt lo2]
  · intro path lo root t idA sty cs c h hcs
    have hlt : lo < cs.length := by
      have := List.getElem?_eq_some_iff.mp hcs
      exact this.1
    unfold resolveHighlightTarget
    rw [h]
    show (if lo < cs.length then _ else _) = _
    rw [if_pos hlt, hcs]

/-- Witness for the amended C4: with a direct text-node anchor the result
is independent of the live offsets 5 and 9; with an element anchor and
live offset 0 the split targets child 0. -/
theorem applyCompositionHighlight_offset_usage_witness :
    applyCompositionHighlight ['x'] 0 [0] 5 demoTreeOneText =
      applyCompositionHighlight ['x'] 0 [0] 9 demoTreeOneText ∧
    resolveHighlightTarget [0] 0 demoTreeTwoTexts =
      .split [0] 0 ['a', 'b'] := by
  constructor
  · exact applyCompositionHighlight_offset_usage.1 ['x'] 0 [0, 0] 5 9
      demoTreeOneText ['H', 'i'] rfl |>.symm ▸ rfl
  · exact applyCompositionHighlight_offset_usage.2 [0] 0 demoTreeTwoTexts
      "p" none [] [.text ['a', 'b'], .text ['c', 'd']] ['a', 'b'] rfl rfl

theorem updateClone_none_eq (computedOf : Nat → String → String) (lo : Nat)
    (ct : Option (List Char)) (st : St) (hcl : st.cloneEditor = none) :
    updateClone computedOf lo ct st = st := by
  unfold updateClone
  rw [hcl]

theorem updateClone_some_eq (computedOf : Nat → String → String) (lo : Nat)
    (ct : Option (List Char)) (st : St) (cl : CloneData)
    (hcl : st.cloneEditor = some cl) :
    updateClone computedOf lo ct st =
      { st with
        primaryClasses := classListAdd (classListRemove st.primaryClasses "overlay-mode") "overlay-mode",
        cloneEditor := some ({ cl with children := refreshedChildren computedOf lo ct st.compositionStartPath st }) } := by
  unfold updateClone
  rw [hcl]

theorem classListAdd_after_remove (cs : List String) (c : String) :
    classListAdd (classListRemove cs c) c = classListRemove cs c ++ [c] := by
  unfold classListAdd
  rw [if_neg]
  simp [classListRemove]

/-- C10: with no clone element present, `updateClone` returns
immediately: the whole module state, DOM included, is returned
unchanged, whatever composition text and live offset the call carries. -/
theorem updateClone_detached_noop (computedOf : Nat → String → String)
    (lo : Nat) (ct : Option (List Char)) (st : St)
    (hcl : st.cloneEditor = none) :
    updateClone computedOf lo ct st = st :=
  updateClone_none_eq computedOf lo ct st hcl

/-- Witness for C10 at the concrete detached baseline state. -/
theorem updateClone_detached_noop_witness :
    stBase.cloneEditor = none ∧
    updateClone envZero 0 (some ['x']) stBase = stBase :=
  ⟨rfl, updateClone_detached_noop envZero 0 (some ['x']) stBase rfl⟩

/-- Counterexample to C6: `updateClone` does write the primary surface's
classes.  It removes and re-adds `overlay-mode` around the content copy,
so when a host-added class follows `overlay-mode` the primary's class
list is observably reordered by a pure synchronization refresh. -/
theorem updateClone_writes_primary_classes :
    (updateClone envZero 0 none stExtraClass).primaryClasses ≠
      stExtraClass.primaryClasses := by
  decide

/-- C6 (amended): a refresh with a clone present leaves the primary's
content, inline styles and every other piece of module state unchanged
and writes the new children into the clone element alone — except for
one write to the primary surface: the `overlay-mode` class is removed
and re-appended (moving it to the end of the class list).  The highlight
step itself (`applyCompositionHighlight`) is a pure function from the
cloned content to the cloned content and touches nothing else. -/
theorem updateClone_frame (computedOf : Nat → String → String) (lo : Nat)
    (ct : Option (List Char)) (st : St) (cl : CloneData)
    (hcl : st.cloneEditor = some cl) :
    (updateClone computedOf lo ct st).primaryChildren = st.primaryChildren ∧
    (updateClone computedOf lo ct st).primaryStyles = st.primaryStyles ∧
    (updateClone computedOf lo ct st).parentChildren = st.parentChildren ∧
    (updateClone computedOf lo ct st).parentPosition = st.parentPosition ∧
    (updateClone computedOf lo ct st).spacerElement = st.spacerElement ∧
    (updateClone computedOf lo ct st).resizeObserver = st.resizeObserver ∧
    (updateClone computedOf lo ct st).positionedAncestor = st.positionedAncestor ∧
    (updateClone computedOf lo ct st).originalPrimaryPosition =
      st.originalPrimaryPosition ∧
    (updateClone computedOf lo ct st).recalcHeightMode = st.recalcHeightMode ∧
    (updateClone computedOf lo ct st).isComposing = st.isComposing ∧
    (updateClone computedOf lo ct st).compositionStartOffset =
      st.compositionStartOffset ∧
    (updateClone computedOf lo ct st).compositionStartPath =
      st.compositionStartPath ∧
    (updateClone computedOf lo ct st).compositionData = st.compositionData ∧
    (updateClone computedOf lo ct st).rangeSet = st.rangeSet ∧
    (updateClone computedOf lo ct st).primaryClasses =
      classListRemove st.primaryClasses "overlay-mode" ++ ["overlay-mode"] ∧
    (updateClone computedOf lo ct st).cloneEditor =
      some ({ cl with children :=
        refreshedChildren computedOf lo ct st.compositionStartPath st }) := by
  rw [updateClone_some_eq computedOf lo ct st cl hcl]
  refine ⟨rfl, rfl, rfl, rfl, rfl, rfl, rfl, rfl, rfl, rfl, rfl, rfl, rfl, rfl,
    ?_, rfl⟩
  exact classListAdd_after_remove st.primaryClasses "overlay-mode"

/-- Witness for the amended C6 at the concrete attached state with a
host class after `overlay-mode`. -/
theorem updateClone_frame_witness :
    stExtraClass.cloneEditor = some cloneZero ∧
    (updateClone envZero 0 none stExtraClass).primaryChildren =
      stExtraClass.primaryChildren ∧
    (updateClone envZero 0 none stExtraClass).primaryClasses =
      classListRemove stExtraClass.primaryClasses "overlay-mode" ++
        ["overlay-mode"] := by
  have h := updateClone_frame envZero 0 none stExtraClass cloneZero rfl
  exact ⟨rfl, h.1, h.2.2.2.2.2.2.2.2.2.2.2.2.2.2.1⟩

/-- Counterexample to C7: composition end does not clear the captured
anchor start offset.  `handleCompositionEnd` resets the composing flag,
the in-progress text and the anchor path, but `compositionStartOffset`
keeps its session value (5 here) instead of being cleared with the rest
of the captured state. -/
theorem handleCompositionEnd_keeps_offset :
    (handleCompositionEnd envZero stComposing).compositionStartOffset = 5 ∧
    stComposing.compositionStartOffset = 5 := by
  constructor
  · rfl
  · rfl

/-- C7 (amended): on composition end the tracker transitions to Idle,
the in-progress text and the anchor path are cleared (the numeric anchor
start offset is retained but unusable, since the cleared path gates all
highlighting), and the one final synchronization runs with no
composition text: an attached clone receives exactly the plain mirrored
content, with no highlight. -/
theorem handleCompositionEnd_spec (computedOf : Nat → String → String)
    (st : St) :
    (handleCompositionEnd computedOf st).isComposing = false ∧
    (handleCompositionEnd computedOf st).compositionData = [] ∧
    (handleCompositionEnd computedOf st).compositionStartPath = none ∧
    (handleCompositionEnd computedOf st).compositionStartOffset =
      st.compositionStartOffset ∧
    (∀ cl, st.cloneEditor = some cl →
      (handleCompositionEnd computedOf st).cloneEditor =
        some ({ cl with children := (mirrorList computedOf st.primaryChildren 0).1 })) ∧
    (st.cloneEditor = none →
      handleCompositionEnd computedOf st =
        { st with isComposing := false, compositionData := [],
                  compositionStartPath := none }) := by
  cases hcl : st.cloneEditor with
  | none =>
    have he : handleCompositionEnd computedOf st =
        { st with isComposing := false, compositionData := [],
                  compositionStartPath := none } := by
      unfold handleCompositionEnd
      exact updateClone_none_eq _ _ _ _ hcl
    rw [he]
    refine ⟨rfl, rfl, rfl, rfl, ?_, ?_⟩
    · intro cl hc
      cases hc
    · intro _
      rw [hcl]
  | some cl0 =>
    have he : handleCompositionEnd computedOf st =
        { st with
          isComposing := false, compositionData := [],
          compositionStartPath := none,
          primaryClasses := classListAdd (classListRemove st.primaryClasses "overlay-mode") "overlay-mode",
          cloneEditor := some ({ cl0 with children := (mirrorList computedOf st.primaryChildren 0).1 }) } := by
      unfold handleCompositionEnd
      rw [updateClone_some_eq computedOf 0 none
        { st with isComposing := false, compositionData := [],
                  compositionStartPath := none } cl0 hcl]
      rfl
    rw [he]
    refine ⟨rfl, rfl, rfl, rfl, ?_, ?_⟩
    · intro cl hc
      cases hc
      rfl
    · intro hnone
      cases hnone

/-- Witness for the amended C7 at a concrete attached mid-composition
state. -/
theorem handleCompositionEnd_spec_witness :
    (handleCompositionEnd envZero stComposingAttached).isComposing = false ∧
    (handleCompositionEnd envZero stComposingAttached).compositionData = [] ∧
    (handleCompositionEnd envZero stComposingAttached).compositionStartPath = none ∧
    (handleCompositionEnd envZero stComposingAttached).compositionStartOffset = 3 ∧
    (handleCompositionEnd envZero stComposingAttached).cloneEditor =
      some ({ cloneZero with children := (mirrorList envZero stComposingAttached.primaryChildren 0).1 }) := by
  have h := handleCompositionEnd_spec envZero stComposingAttached
  exact ⟨h.1, h.2.1, h.2.2.1, h.2.2.2.1, h.2.2.2.2.1 cloneZero rfl⟩

theorem updateClone_isSome (computedOf : Nat → String → String) (lo : Nat)
    (ct : Option (List Char)) (st : St) :
    (updateClone computedOf lo ct st).cloneEditor.isSome =
      st.cloneEditor.isSome := by
  cases hcl : st.cloneEditor with
  | none => rw [updateClone_none_eq _ _ _ _ hcl, hcl]
  | some cl =>
    rw [updateClone_some_eq _ _ _ _ cl hcl]
    rfl

theorem updateClone_parentChildren (computedOf : Nat → String → String)
    (lo : Nat) (ct : Option (List Char)) (st : St) :
    (updateClone computedOf lo ct st).parentChildren = st.parentChildren := by
  cases hcl : st.cloneEditor with
  | none => rw [updateClone_none_eq _ _ _ _ hcl]
  | some cl => rw [updateClone_some_eq _ _ _ _ cl hcl]

theorem createCloneEditor_isSome (env : MeasureEnv) (st : St) :
    (createCloneEditor env st).cloneEditor.isSome = true := by
  cases hcl : st.cloneEditor with
  | some cl =>
    unfold createCloneEditor
    rw [hcl]
    rw [if_pos (show (Option.isSome (some cl)) = true from rfl)]
    rw [hcl]
    rfl
  | none =>
    unfold createCloneEditor
    rw [hcl]
    show (updateClone env.computedOf 0 none (attachSteps env st)).cloneEditor.isSome = true
    rw [updateClone_isSome]
    rfl

theorem createCloneEditor_present_noop (env : MeasureEnv) (st : St)
    (h : st.cloneEditor.isSome = true) : createCloneEditor env st = st := by
  unfold createCloneEditor
  rw [if_pos h]

theorem removeCloneEditor_absent_noop (st : St)
    (h : st.cloneEditor = none) : removeCloneEditor st = st := by
  unfold removeCloneEditor
  rw [h]

theorem removeCloneEditor_result_none (st : St) :
    (removeCloneEditor st).cloneEditor = none := by
  cases hcl : st.cloneEditor with
  | none => rw [removeCloneEditor_absent_noop st hcl, hcl]
  | some cl =>
    unfold removeCloneEditor
    rw [hcl]
    cases hsp : st.spacerElement <;> cases hop : st.originalPrimaryPosition <;>
      simp [hsp, hop]

theorem countNode_insertBeforePrimary (x y : PageNode) (l : List PageNode) :
    countNode y (insertBeforePrimary x l) =
      countNode y l + (if x = y then 1 else 0) := by
  induction l with
  | nil =>
    simp only [insertBeforePrimary, countNode]
    omega
  | cons n ns ih =>
    unfold insertBeforePrimary
    by_cases hn : n = .primary
    · rw [if_pos hn]
      simp only [countNode]
      omega
    · rw [if_neg hn]
      simp only [countNode, ih]
      omega

theorem attachSteps_parentChildren (env : MeasureEnv) (st : St) :
    (attachSteps env st).parentChildren =
      insertBeforePrimary .clone (insertBeforePrimary .spacer st.parentChildren) := by
  simp only [attachSteps]
  split <;> first
    | rfl
    | (split <;> rfl)

theorem createCloneEditor_parentChildren (env : MeasureEnv) (st : St)
    (h : st.cloneEditor = none) :
    (createCloneEditor env st).parentChildren =
      insertBeforePrimary .clone (insertBeforePrimary .spacer st.parentChildren) := by
  unfold createCloneEditor
  rw [h]
  show (updateClone env.computedOf 0 none (attachSteps env st)).parentChildren = _
  rw [updateClone_parentChildren]
  exact attachSteps_parentChildren env st

/-- C5: attach and detach are idempotent.  Invoking `removeCloneEditor`
twice in a row leaves the same state as invoking it once, and invoking
`createCloneEditor` twice in a row (from a detached state with no stray
clone or spacer siblings) leaves exactly one clone element and one
spacer element in the parent; calling attach with a clone present or
detach with no clone present is a no-op, not an error. -/
theorem attach_detach_idempotent :
    (∀ (env env' : MeasureEnv) (st : St),
        createCloneEditor env' (createCloneEditor env st) =
          createCloneEditor env st) ∧
    (∀ st : St,
        removeCloneEditor (removeCloneEditor st) = removeCloneEditor st) ∧
    (∀ (env : MeasureEnv) (st : St), st.cloneEditor.isSome = true →
        createCloneEditor env st = st) ∧
    (∀ st : St, st.cloneEditor = none → removeCloneEditor st = st) ∧
    (∀ (env env' : MeasureEnv) (st : St), st.cloneEditor = none →
        countNode .clone st.parentChildren = 0 →
        countNode .spacer st.parentChildren = 0 →
        countNode .clone
            (createCloneEditor env' (createCloneEditor env st)).parentChildren = 1 ∧
        countNode .spacer
            (createCloneEditor env' (createCloneEditor env st)).parentChildren = 1) := by
  have hcc : ∀ (env env' : MeasureEnv) (st : St),
      createCloneEditor env' (createCloneEditor env st) = createCloneEditor env st :=
    fun env env' st =>
      createCloneEditor_present_noop env' (createCloneEditor env st)
        (createCloneEditor_isSome env st)
  refine ⟨hcc, ?_, createCloneEditor_present_noop, removeCloneEditor_absent_noop, ?_⟩
  · intro st
    exact removeCloneEditor_absent_noop (removeCloneEditor st)
      (removeCloneEditor_result_none st)
  · intro env env' st hcl hc hs
    rw [hcc env env' st, createCloneEditor_parentChildren env st hcl]
    rw [countNode_insertBeforePrimary, countNode_insertBeforePrimary,
      countNode_insertBeforePrimary, countNode_insertBeforePrimary, hc, hs]
    constructor <;> decide

/-- Witness for C5 at the concrete detached baseline state and the empty
measurement environment. -/
theorem attach_detach_idempotent_witness :
    stBase.cloneEditor = none ∧
    countNode .clone stBase.parentChildren = 0 ∧
    countNode .spacer stBase.parentChildren = 0 ∧
    countNode .clone
      (createCloneEditor measureEnvZero
        (createCloneEditor measureEnvZero stBase)).parentChildren = 1 ∧
    countNode .spacer
      (createCloneEditor measureEnvZero
        (createCloneEditor measureEnvZero stBase)).parentChildren = 1 ∧
    removeCloneEditor (removeCloneEditor stBase) = removeCloneEditor stBase := by
  have h := attach_detach_idempotent.2.2.2.2 measureEnvZero measureEnvZero stBase
    rfl rfl rfl
  exact ⟨rfl, rfl, rfl, h.1, h.2, attach_detach_idempotent.2.1 stBase⟩

/-- Counterexample to C3 as stated: with empty in-progress text
(length L = 0) the claimed bounds s + L ≤ length c hold (1 + 0 ≤ 2),
but the highlight step replaces nothing — `if (targetNode &&
compositionText)` treats the empty string as falsy — so the resolved
text node is not replaced by the three claimed nodes: the parent keeps
its single text child and no marker appears. -/
theorem applyCompositionHighlight_empty_text_no_split :
    applyCompositionHighlight [] 1 [0, 0] 0 demoTreeOneText = demoTreeOneText ∧
    getNodeByPath [0] demoTreeOneText =
      some (.elem "p" none [] [.text ['H', 'i']]) :=
  ⟨rfl, rfl⟩
